import Mathlib

/-!
Shallow embedding of `src/main.py` (Wildberries catalog harvester) and proofs
about its specification claims.

Modelling conventions:
* A JSON tree (any value handled by the Python code) is `JVal`; Python `dict`s
  are association lists with string keys (JSON object keys are strings),
  Python `list`s are Lean lists, Python `float`s are modelled as rationals.
* Fallible Python code (code that may raise) is embedded in `Except String`;
  the error string stands for the exception.  Code whose exceptions are caught
  locally (`try`/`except` blocks) is embedded as a total function.
* Python truthiness, `or`, `str()`, `int()`, `float()`, `x in y` and
  `dict.get` are embedded by the `py*` helpers below, following CPython
  semantics for the value shapes that can occur here.  Numeric rendering of
  floats is approximated (`ratStr`); no property proved below inspects the
  rendered digits of a number.
-/

inductive JVal where
  | null : JVal
  | bool (b : Bool) : JVal
  | int (n : ℤ) : JVal
  | float (q : ℚ) : JVal
  | str (s : String) : JVal
  | arr (xs : List JVal) : JVal
  | obj (fs : List (String × JVal)) : JVal

/-- Python truthiness (`bool(x)`) for the value shapes occurring in JSON. -/
def pyTruthy : JVal → Bool
  | .null => false
  | .bool b => b
  | .int n => n != 0
  | .float q => q != 0
  | .str s => !s.isEmpty
  | .arr xs => !xs.isEmpty
  | .obj fs => !fs.isEmpty

/-- Python `a or b` on JSON values: `a` if truthy, else `b`. -/
def pyOr (a b : JVal) : JVal := if pyTruthy a then a else b

/-- Lower-casing as used by `str.lower()` on the strings of this program:
ASCII letters and the Cyrillic range А..Я plus Ё.  (Other Unicode case pairs
never occur in the marker substrings `"страна"`/`"россия"`.) -/
def ruLowerChar (c : Char) : Char :=
  if 65 ≤ c.toNat ∧ c.toNat ≤ 90 then Char.ofNat (c.toNat + 32)
  else if 0x410 ≤ c.toNat ∧ c.toNat ≤ 0x42F then Char.ofNat (c.toNat + 32)
  else if c.toNat = 0x401 then Char.ofNat 0x451
  else c

def ruLower (s : String) : String := String.mk (s.data.map ruLowerChar)

/-- Does `hay` start with `needle`? -/
def takesPre : List Char → List Char → Bool
  | [], _ => true
  | _ :: _, [] => false
  | c :: cs, d :: ds => c == d && takesPre cs ds

/-- Does `hay` contain `needle` as a contiguous run? -/
def containsSeq : List Char → List Char → Bool
  | [], needle => needle.isEmpty
  | c :: t, needle => takesPre needle (c :: t) || containsSeq t needle

/-- Python `needle in hay` for strings. -/
def pyIn (needle hay : String) : Bool := containsSeq hay.data needle.data

def isAsciiDigit (c : Char) : Bool := 48 ≤ c.toNat && c.toNat ≤ 57

def digitsToNatAux (acc : ℕ) : List Char → Option ℕ
  | [] => some acc
  | c :: cs => if isAsciiDigit c then digitsToNatAux (acc * 10 + (c.toNat - 48)) cs else none

/-- Value of a non-empty all-digit run, `none` otherwise. -/
def digitsToNat : List Char → Option ℕ
  | [] => none
  | cs => digitsToNatAux 0 cs

def isPyWs (c : Char) : Bool := c == ' ' || c == '\t' || c == '\n' || c == '\r'

def stripWs (cs : List Char) : List Char :=
  ((cs.dropWhile isPyWs).reverse.dropWhile isPyWs).reverse

def splitSign : List Char → Bool × List Char
  | '-' :: cs => (true, cs)
  | '+' :: cs => (false, cs)
  | cs => (false, cs)

/-- Python `int(s)` on a string: optional sign and a non-empty digit run
(underscore separators and exotic bases are not modelled; none occur here). -/
def parsePyInt (s : String) : Option ℤ :=
  let cs := stripWs s.data
  let (neg, cs2) := splitSign cs
  match digitsToNat cs2 with
  | some n => some (if neg then -(n : ℤ) else (n : ℤ))
  | none => none

/-- Python `float(s)` on a string: sign, decimal digits with at most one dot,
optional exponent.  (`inf`/`nan` spellings are not modelled; none occur here.) -/
def parsePyFloat (s : String) : Option ℚ :=
  let cs := stripWs s.data
  let (neg, cs2) := splitSign cs
  let (mant, erest) := cs2.span (fun c => !(c == 'e' || c == 'E'))
  let expPart : Option ℤ :=
    match erest with
    | [] => some 0
    | _ :: ecs =>
      let (eneg, ecs2) := splitSign ecs
      match digitsToNat ecs2 with
      | some n => some (if eneg then -(n : ℤ) else (n : ℤ))
      | none => none
  match expPart with
  | none => none
  | some e =>
    let (ip, drest) := mant.span (fun c => !(c == '.'))
    let fracDigits : List Char := match drest with | [] => [] | _ :: fcs => fcs
    if ip.isEmpty && fracDigits.isEmpty then none
    else if !(ip.all isAsciiDigit && fracDigits.all isAsciiDigit) then none
    else
      let iv : ℕ := (digitsToNatAux 0 ip).getD 0
      let fv : ℕ := (digitsToNatAux 0 fracDigits).getD 0
      let mantV : ℚ := (iv : ℚ) + (fv : ℚ) / (10 : ℚ) ^ fracDigits.length
      let v : ℚ := mantV * (10 : ℚ) ^ e
      some (if neg then -v else v)

/-- Truncation toward zero, as Python `int(float)`. -/
def ratTrunc (q : ℚ) : ℤ := if 0 ≤ q then ⌊q⌋ else -⌊-q⌋

/-- Python `int(x)`: `some` on success, `none` when `int()` would raise
`TypeError`/`ValueError`. -/
def pyIntCoe : JVal → Option ℤ
  | .int n => some n
  | .float q => some (ratTrunc q)
  | .bool b => some (if b then 1 else 0)
  | .str s => parsePyInt s
  | _ => none

/-- Python `float(x)`: `some` on success, `none` when `float()` would raise. -/
def pyFloatCoe : JVal → Option ℚ
  | .int n => some (n : ℚ)
  | .float q => some q
  | .bool b => some (if b then 1 else 0)
  | .str s => parsePyFloat s
  | _ => none

/-- A single-quote character, used by Python `repr` of strings. -/
def sQuote : String := "\x27"

/-- Rendering of a number inside `str()`/`repr()`/JSON text.  Python prints
floats in decimal; the exact digits are approximated here — every property
proved below only uses that the rendering consists of digits, `.`, `-`, `/`
(in particular it never contains Cyrillic letters). -/
def ratStr (q : ℚ) : String :=
  if q.den = 1 then toString q.num ++ ".0" else toString q.num ++ "/" ++ toString q.den

mutual
/-- Python `repr(x)` (string form used for values nested inside containers). -/
def pyRepr : JVal → String
  | .null => "None"
  | .bool b => if b then "True" else "False"
  | .int n => toString n
  | .float q => ratStr q
  | .str s => sQuote ++ s ++ sQuote
  | .arr xs => "[" ++ reprArr xs ++ "]"
  | .obj fs => "\x7b" ++ reprObj fs ++ "\x7d"

def reprArr : List JVal → String
  | [] => ""
  | [v] => pyRepr v
  | v :: rest => pyRepr v ++ ", " ++ reprArr rest

def reprObj : List (String × JVal) → String
  | [] => ""
  | [(k, v)] => sQuote ++ k ++ sQuote ++ ": " ++ pyRepr v
  | (k, v) :: rest => sQuote ++ k ++ sQuote ++ ": " ++ pyRepr v ++ ", " ++ reprObj rest
end

/-- Python `str(x)`: the string itself for strings, `repr`-style otherwise. -/
def pyStr : JVal → String
  | .str s => s
  | v => pyRepr v

mutual
/-- `json.dumps(x, ensure_ascii=False, indent=2)`.  Indentation whitespace and
string escaping are not modelled; no property proved below inspects the
serialized text. -/
def jsonDumps : JVal → String
  | .null => "null"
  | .bool b => if b then "true" else "false"
  | .int n => toString n
  | .float q => ratStr q
  | .str s => "\"" ++ s ++ "\""
  | .arr xs => "[" ++ dumpArr xs ++ "]"
  | .obj fs => "\x7b" ++ dumpObj fs ++ "\x7d"

def dumpArr : List JVal → String
  | [] => ""
  | [v] => jsonDumps v
  | v :: rest => jsonDumps v ++ ", " ++ dumpArr rest

def dumpObj : List (String × JVal) → String
  | [] => ""
  | [(k, v)] => "\"" ++ k ++ "\": " ++ jsonDumps v
  | (k, v) :: rest => "\"" ++ k ++ "\": " ++ jsonDumps v ++ ", " ++ dumpObj rest
end

/-- `p.get(k)` assuming `p` is a dict (returns `None` for a missing key);
returns `null` on non-dicts — use `pyGetE` where the raising behaviour of
`.get` on non-dicts matters. -/
def getD (p : JVal) (k : String) : JVal :=
  match p with
  | .obj fs => (fs.lookup k).getD .null
  | _ => .null

/-- `p.get(k)`: raises `AttributeError` when `p` is not a dict. -/
def pyGetE (p : JVal) (k : String) : Except String JVal :=
  match p with
  | .obj _ => .ok (getD p k)
  | _ => .error "AttributeError: no attribute get"

/-- Python iteration `for x in v`: list elements, string characters, dict
keys; raises `TypeError` otherwise. -/
def pyIterE : JVal → Except String (List JVal)
  | .arr xs => .ok xs
  | .str s => .ok (s.data.map (fun c => .str (String.singleton c)))
  | .obj fs => .ok (fs.map (fun kv => .str kv.1))
  | _ => .error "TypeError: not iterable"

def isNull : JVal → Bool
  | .null => true
  | _ => false

def isErr {α : Type} : Except String α → Bool
  | .error _ => true
  | .ok _ => false

def isOkE {α : Type} (r : Except String α) : Bool := !(isErr r)

/-- `int(v)` as a raising operation. -/
def pyIntE (v : JVal) : Except String ℤ :=
  match pyIntCoe v with
  | some n => .ok n
  | none => .error "ValueError: invalid int() argument"

/-! ## Embeddings of the functions of `src/main.py` -/

/-- `TRANSIENT = {429, 500, 502, 503, 504}` (main.py line 14). -/
def TRANSIENT : List ℕ := [429, 500, 502, 503, 504]

/-- `money` (main.py lines 17-21): `float(v) / 100.0 if v is not None else None`,
with `TypeError`/`ValueError` caught to `None`. -/
def money (v : JVal) : Option ℚ :=
  match v with
  | .null => none
  | v => (pyFloatCoe v).map (fun x => x / 100)

/-- `product_url` (main.py lines 24-25); the trailing `if nm_id` makes a zero
identifier yield `None`. -/
def product_url (nm_id : ℤ) : Option String :=
  if nm_id ≠ 0 then
    some ("https://www.wildberries.ru/catalog/" ++ toString nm_id ++ "/detail.aspx")
  else none

/-- `seller_url` (main.py lines 28-29). -/
def seller_url (supplier_id : ℤ) : Option String :=
  if supplier_id ≠ 0 then
    some ("https://www.wildberries.ru/seller/" ++ toString supplier_id)
  else none

/-- `sz.get("name") or sz.get("origName")` (main.py line 35). -/
def sizeName (sz : JVal) : Except String JVal := do
  let a ← pyGetE sz "name"
  if pyTruthy a then pure a else pyGetE sz "origName"

/-- `sizes` (main.py lines 32-38).  Raises (`Except.error`) when the size
collection is a truthy non-iterable or its elements do not support `.get`. -/
def sizes (p : JVal) : Except String String := do
  let szsV ← pyGetE p "sizes"
  let items ← pyIterE (pyOr szsV (.arr []))
  let out ← items.foldlM (fun (acc : List String) sz => do
      let s ← sizeName sz
      pure (if pyTruthy s then acc ++ [pyStr s] else acc)) ([] : List String)
  pure (String.intercalate ", " out)

/-- `stocks` (main.py lines 41-49); the `int(...)` coercion failures are
caught (contribute zero), but `.get`/iteration on ill-shaped entries raise. -/
def stocks (p : JVal) : Except String ℤ := do
  let szsV ← pyGetE p "sizes"
  let items ← pyIterE (pyOr szsV (.arr []))
  items.foldlM (fun (total : ℤ) sz => do
      let stsV ← pyGetE sz "stocks"
      let sts ← pyIterE (pyOr stsV (.arr []))
      sts.foldlM (fun (t : ℤ) st => do
          let q ← pyGetE st "qty"
          pure (match pyIntCoe (pyOr q (.int 0)) with
                | some n => t + n
                | none => t)) total) (0 : ℤ)

/-- Zero-padding to width 2, as the format spec `{basket:02d}`. -/
def pad2 (n : ℤ) : String :=
  let s := toString n
  if s.length < 2 then "0" ++ s else s

/-- `range(1, k + 1)` over integers. -/
def range1 (k : ℤ) : List ℤ := (List.range k.toNat).map (fun i => (i : ℤ) + 1)

/-- `images` (main.py lines 52-66).  Total: the only failure modes are the two
`int` coercions, and both are caught to `""`.  (`images` is only invoked on a
dict, after `parse_row_and_chars` has already performed a raising `.get`.) -/
def images (p : JVal) : String :=
  let nm := pyOr (getD p "id") (getD p "nmId")
  let pics := getD p "pics"
  match pyIntCoe nm, pyIntCoe pics with
  | some n, some k =>
    let basket := Int.fdiv n 100000
    let host := "https://basket-" ++ pad2 basket ++ ".wbbasket.ru"
    String.intercalate ", " ((range1 k).map (fun i =>
      host ++ "/vol" ++ toString (Int.fdiv n 100000) ++ "/part" ++ toString (Int.fdiv n 1000)
        ++ "/" ++ toString n ++ "/images/big/" ++ toString i ++ ".jpg"))
  | _, _ => ""

mutual
/-- `has_russia` (main.py lines 69-79): recursive search for a dict entry with
`"страна"` in the lowered key and `"россия"` in the lowered `str()` of the
value, recursing into dict values and list elements; on scalars,
`"россия" in str(x).lower()`. -/
def has_russia : JVal → Bool
  | .obj fs => hrObj fs
  | .arr xs => hrArr xs
  | v => pyIn "россия" (ruLower (pyStr v))

def hrObj : List (String × JVal) → Bool
  | [] => false
  | (k, v) :: rest =>
    (pyIn "страна" (ruLower k) && pyIn "россия" (ruLower (pyStr v)))
      || has_russia v || hrObj rest

def hrArr : List JVal → Bool
  | [] => false
  | v :: rest => has_russia v || hrArr rest
end

/-! ## The resilient fetch client (`WBClient`, main.py lines 82-149)

A scripted run: `resp i` is the outcome of the network call of attempt `i`
(1-indexed), `jitter i` is the value drawn by `random.uniform(0, 1.2)` at
attempt `i`.  `get_json` returns the final result together with the number of
attempts performed and the list of backoff sleeps, in order. -/

structure ClientCfg where
  max_attempts : ℕ
  base_delay : ℚ
  max_delay : ℚ

/-- Outcome of one `self.http.get` call: transport error, or an HTTP response
with status code, optional `Retry-After` header, parsed JSON body (for status
200) and response text. -/
inductive Resp where
  | transport (msg : String) : Resp
  | http (code : ℕ) (retryAfterHeader : Option String) (body : JVal) (text : String) : Resp

/-- `WBClient._retry_after` (main.py lines 97-104): absent or empty header →
`None`; otherwise `float(ra)` with failures → `None`. -/
def retry_after (h : Option String) : Option ℚ :=
  match h with
  | none => none
  | some s => if s.isEmpty then none else parsePyFloat s

/-- The computed backoff of `WBClient._sleep_backoff` (main.py lines 110-111):
`min(max_delay, base_delay * 2 ** (attempt - 1))` plus the jitter draw. -/
def backoffDelay (cfg : ClientCfg) (attempt : ℕ) (jit : ℚ) : ℚ :=
  min cfg.max_delay (cfg.base_delay * 2 ^ (attempt - 1)) + jit

/-- `WBClient._sleep_backoff` (main.py lines 106-112): a provided
`retry_after` is used verbatim (no jitter, no clamping); otherwise the
computed backoff applies. -/
def sleepDelay (cfg : ClientCfg) (attempt : ℕ) (ra : Option ℚ) (jit : ℚ) : ℚ :=
  match ra with
  | some r => r
  | none => backoffDelay cfg attempt jit

structure GetOut where
  result : Except String JVal
  attempts : ℕ
  delays : List ℚ

/-- The attempt loop of `WBClient.get_json` (main.py lines 114-149), with
`fuel` = remaining attempts (`isLast` iff `attempt == max_attempts`). -/
def getJsonGo (cfg : ClientCfg) (resp : ℕ → Resp) (jitter : ℕ → ℚ) :
    ℕ → ℕ → Option String → GetOut
  | _, 0, lastErr => ⟨.error (lastErr.getD "unreachable"), 0, []⟩
  | attempt, fuel + 1, _lastErr =>
    let isLast : Bool := fuel == 0
    match resp attempt with
    | .transport msg =>
      if isLast then ⟨.error ("http error: " ++ msg), 1, []⟩
      else
        let d := backoffDelay cfg attempt (jitter attempt)
        let o := getJsonGo cfg resp jitter (attempt + 1) fuel (some ("http error: " ++ msg))
        ⟨o.result, o.attempts + 1, d :: o.delays⟩
    | .http code raH body text =>
      if code == 200 then
        if pyTruthy body then ⟨.ok body, 1, []⟩
        else if isLast then ⟨.error "200 but empty json", 1, []⟩
        else
          let d := backoffDelay cfg attempt (jitter attempt)
          let o := getJsonGo cfg resp jitter (attempt + 1) fuel (some "200 but empty json")
          ⟨o.result, o.attempts + 1, d :: o.delays⟩
      else if TRANSIENT.contains code && !isLast then
        let ra := if code == 429 then retry_after raH else none
        let d := sleepDelay cfg attempt ra (jitter attempt)
        let o := getJsonGo cfg resp jitter (attempt + 1) fuel
          (some (toString code ++ " " ++ text))
        ⟨o.result, o.attempts + 1, d :: o.delays⟩
      else ⟨.error ("request failed: " ++ toString code ++ " " ++ text.take 200), 1, []⟩

/-- `WBClient.get_json`: run the attempt loop from attempt 1. -/
def get_json (cfg : ClientCfg) (resp : ℕ → Resp) (jitter : ℕ → ℚ) : GetOut :=
  getJsonGo cfg resp jitter 1 cfg.max_attempts none

/-! ## The catalog paginator (`fetch_all_nm_ids`, main.py lines 152-197)

`pages p` is the result of `client.get_json` for page `p` (1-indexed).
CPython iterates a `set` in hash-table order, which for this program's integer
identifiers need not be insertion order; the iteration order used by
`nm_ids.extend(page_ids)` is therefore a parameter `setIter`, applied to the
insertion-ordered deduplicated list of a page's identifiers.  Any faithful
`setIter` returns a permutation of its (duplicate-free) input. -/

def SetIterOK (setIter : List ℤ → List ℤ) : Prop :=
  ∀ xs : List ℤ, xs.Nodup → List.Perm (setIter xs) xs

/-- First-occurrence deduplication (`list(dict.fromkeys(...))`, and the
membership dedup a `set` performs at insertion time). -/
def firstSeenAux (seen : List ℤ) : List ℤ → List ℤ
  | [] => []
  | x :: xs => if x ∈ seen then firstSeenAux seen xs else x :: firstSeenAux (x :: seen) xs

def firstSeen (l : List ℤ) : List ℤ := firstSeenAux [] l

/-- Python `set` equality: same elements. -/
def sameSet (a b : List ℤ) : Bool :=
  a.all (fun x => b.contains x) && b.all (fun x => a.contains x)

/-- The per-page identifier collection (main.py lines 177-183): for each
product, `p.get("id") or p.get("nmId") or p.get("nm")`, then `int(...)` with
failures skipped, inserted into a set (represented by its insertion-ordered
duplicate-free list). -/
def pageIdsOf (products : List JVal) : Except String (List ℤ) := do
  let raw ← products.foldlM (fun (acc : List ℤ) p => do
      let a ← pyGetE p "id"
      let v ← if pyTruthy a then pure a else do
          let b ← pyGetE p "nmId"
          if pyTruthy b then pure b else pyGetE p "nm"
      pure (match pyIntCoe v with
            | some n => acc ++ [n]
            | none => acc)) ([] : List ℤ)
  pure (firstSeen raw)

/-- The page loop of `fetch_all_nm_ids` (main.py lines 157-197), with `fuel` =
remaining pages (`page <= max_pages`).  Returns the deduplicated identifier
list and the number of the last page fetched. -/
def fetchAllGo (pages : ℕ → Except String JVal) (setIter : List ℤ → List ℤ) (limit : ℕ) :
    ℕ → ℕ → List ℤ → List ℤ → Except String (List ℤ × ℕ)
  | page, 0, _prev, acc => .ok (firstSeen acc, page - 1)
  | page, fuel + 1, prev, acc =>
    match pages page with
    | .error e => .error e
    | .ok data =>
      match pyGetE data "products" with
      | .error e => .error e
      | .ok prodsField =>
        let prodsV := pyOr prodsField (.arr [])
        if !pyTruthy prodsV then .ok (firstSeen acc, page)
        else
          match pyIterE prodsV with
          | .error e => .error e
          | .ok products =>
            match pageIdsOf products with
            | .error e => .error e
            | .ok pageIds =>
              if !pageIds.isEmpty && sameSet pageIds prev then .ok (firstSeen acc, page)
              else
                let acc2 := acc ++ setIter pageIds
                if products.length < limit then .ok (firstSeen acc2, page)
                else fetchAllGo pages setIter limit (page + 1) fuel pageIds acc2

/-- `fetch_all_nm_ids` (main.py lines 152-197). -/
def fetch_all_nm_ids (pages : ℕ → Except String JVal) (setIter : List ℤ → List ℤ)
    (limit maxPages : ℕ) : Except String (List ℤ × ℕ) :=
  fetchAllGo pages setIter limit 1 maxPages [] []

/-! ## Detail fetch (`fetch_detail`, main.py lines 200-215) -/

/-- Python subscript `x[0]`. -/
def subscriptZero : JVal → Except String JVal
  | .arr (x :: _) => .ok x
  | .arr [] => .error "IndexError"
  | .str s =>
    match s.data with
    | c :: _ => .ok (.str (String.singleton c))
    | [] => .error "IndexError"
  | .obj _ => .error "KeyError: 0"
  | _ => .error "TypeError: not subscriptable"

/-- `fetch_detail` (main.py lines 200-215), as a function of the `get_json`
outcome `r`.  NOTE the bare `except Exception: return None` (lines 211-212):
every `get_json` failure — retry exhaustion included — yields `None` rather
than raising.  Only the post-processing of a malformed 200 payload
(`.get` on a non-dict, lines 214-215) can raise out of `fetch_detail`. -/
def fetch_detail (r : Except String JVal) : Except String (Option JVal) :=
  match r with
  | .error _ => .ok none
  | .ok data =>
    match pyGetE data "data" with
    | .error e => .error e
    | .ok dd =>
      match pyGetE (pyOr dd (.obj [])) "products" with
      | .error e => .error e
      | .ok prodsField =>
        let prods := pyOr prodsField (.arr [])
        if pyTruthy prods then (subscriptZero prods).map some
        else .ok none

/-! ## The record extractor (`parse_row_and_chars`, main.py lines 219-261) -/

/-- The 13-column canonical record, in the order of the row list built at
main.py lines 246-260: product URL, identifier, name, price, description,
image links, characteristics JSON, seller name, seller URL, sizes, stocks,
rating, review count. -/
structure Row where
  product_link : Option String
  nm_id_cell : Option ℤ
  name_cell : JVal
  price : Option ℚ
  descr : JVal
  image_links : String
  characteristics_json : String
  seller_name : JVal
  seller_link : Option String
  sizes_cell : String
  stocks_cell : ℤ
  rating : Option ℚ
  reviews : Option ℤ

/-- Python `a or b` on float-or-None values (`money(...) or money(...)`):
`None` and `0.0` are falsy. -/
def pyOrOpt (a b : Option ℚ) : Option ℚ :=
  match a with
  | some x => if x ≠ 0 then some x else b
  | none => b

/-- `p.get("id") or p.get("nmId")` (main.py line 220). -/
def nmIdOf (p : JVal) : JVal := pyOr (getD p "id") (getD p "nmId")

/-- `money(p.get("salePriceU")) or money(p.get("priceU")) or money(p.get("price"))`
(main.py line 223). -/
def priceOf (p : JVal) : Option ℚ :=
  pyOrOpt (money (getD p "salePriceU"))
    (pyOrOpt (money (getD p "priceU")) (money (getD p "price")))

/-- `p.get("description") or p.get("descr")` (main.py line 224). -/
def descrOf (p : JVal) : JVal := pyOr (getD p "description") (getD p "descr")

/-- `p.get("supplier") or p.get("supplierName")` (main.py line 225). -/
def sellerNameOf (p : JVal) : JVal := pyOr (getD p "supplier") (getD p "supplierName")

/-- Rating extraction (main.py lines 227-232): `float(p.get("rating"))` when
non-None, with coercion failures caught to `None`. -/
def ratingOf (p : JVal) : Option ℚ :=
  let v := getD p "rating"
  if isNull v then none else pyFloatCoe v

/-- Review-count extraction (main.py lines 234-241): first of four keys whose
value is non-None and `int`-coercible. -/
def reviewsOf (p : JVal) : Option ℤ :=
  ["feedbacks", "feedbacksCount", "reviews", "commentsCount"].findSome?
    (fun k => let v := getD p k; if isNull v then none else pyIntCoe v)

/-- `p.get("properties") or p.get("options") or p.get("characteristics") or {}`
(main.py line 243). -/
def charsOf (p : JVal) : JVal :=
  pyOr (getD p "properties")
    (pyOr (getD p "options") (pyOr (getD p "characteristics") (.obj [])))

/-- `parse_row_and_chars` (main.py lines 219-261).  The raising operations, in
Python evaluation order: the initial `.get` calls (raise iff `p` is not a
dict), then within the row list `int(nm_id)` (element 0, only when `nm_id` is
truthy), `int(supplier_id)` (element 8, only when truthy), `sizes(p)`
(element 9) and `stocks(p)` (element 10); everything else degrades. -/
def parse_row_and_chars (p : JVal) : Except String (Row × JVal) :=
  match p with
  | .obj _ =>
    let nm_id := nmIdOf p
    let supplier_id := getD p "supplierId"
    match (if pyTruthy nm_id then (pyIntE nm_id).map some
           else .ok none : Except String (Option ℤ)) with
    | .error e => .error e
    | .ok nmInt =>
      match (if pyTruthy supplier_id then (pyIntE supplier_id).map some
             else .ok none : Except String (Option ℤ)) with
      | .error e => .error e
      | .ok supInt =>
        match sizes p with
        | .error e => .error e
        | .ok sizesStr =>
          match stocks p with
          | .error e => .error e
          | .ok stocksTotal =>
            let ch := charsOf p
            .ok (⟨nmInt.bind product_url, nmInt, getD p "name", priceOf p, descrOf p,
                  images p, jsonDumps ch, sellerNameOf p, supInt.bind seller_url,
                  sizesStr, stocksTotal, ratingOf p, reviewsOf p⟩, ch)
  | _ => .error "AttributeError: no attribute get"

/-! ## The harvest loop and the sink (`main`, main.py lines 288-359)

One settled detail-fetch future is an `Except String (Option JVal)` — the
value `fetch_detail` returned, or the exception it raised.  The futures of a
run are consumed in completion order (`asyncio.as_completed`); that order,
flattened over the batches, is the input list of `foldSteps`. -/

structure RunState where
  ok_full : ℕ
  ok_filt : ℕ
  failed : ℕ
  empty : ℕ
  full_rows : List Row
  filt_rows : List Row

def initState : RunState := ⟨0, 0, 0, 0, [], []⟩

/-- The filter of main.py lines 334-352: skip when price or rating is absent,
when `rating < 4.5`, when `price > 10000`, or when `has_russia` fails on the
characteristics tree; otherwise append to the filtered sheet.  (The
`try`/`except` around the two `float(...)` comparisons can never fire: both
cells are already floats.) -/
def filterStep (st : RunState) (row : Row) (ch : JVal) : RunState :=
  match row.price, row.rating with
  | some pr, some ra =>
    if ra < 4.5 then st
    else if pr > 10000 then st
    else if !has_russia ch then st
    else { st with ok_filt := st.ok_filt + 1, filt_rows := st.filt_rows ++ [row] }
  | _, _ => st

/-- Processing of one settled detail future (main.py lines 319-352): a raised
exception increments `failed`; a `None` payload increments `empty`; otherwise
the payload is parsed (an exception from `parse_row_and_chars` propagates and
aborts the harvest body), appended to the full sheet, and filtered. -/
def mainStep (st : RunState) (r : Except String (Option JVal)) : Except String RunState :=
  match r with
  | .error _ => .ok { st with failed := st.failed + 1 }
  | .ok none => .ok { st with empty := st.empty + 1 }
  | .ok (some d) =>
    match parse_row_and_chars d with
    | .error e => .error e
    | .ok (row, ch) =>
      let st2 := { st with ok_full := st.ok_full + 1, full_rows := st.full_rows ++ [row] }
      .ok (filterStep st2 row ch)

/-- Consume settled futures in order until exhaustion or an aborting
exception; returns the state accumulated so far and the exception, if any. -/
def foldSteps (st : RunState) : List (Except String (Option JVal)) → RunState × Option String
  | [] => (st, none)
  | r :: rs =>
    match mainStep st r with
    | .ok st2 => foldSteps st2 rs
    | .error e => (st, some e)

/-- The fixed 13-column header of `make_wb_sheet` (main.py lines 268-284). -/
def wbHeader : List String :=
  ["Ссылка на товар", "Артикул", "Название", "Цена", "Описание",
   "Ссылки на изображения", "Все характеристики (json)", "Название селлера",
   "Ссылка на селлера", "Размеры", "Остатки", "Рейтинг", "Количество отзывов"]

/-- A persisted worksheet: title, header row, then data rows. -/
structure Sheet where
  title : String
  header : List String
  rows : List Row

/-- `make_wb_sheet` (main.py lines 264-285): a fresh sheet holding only the
header row. -/
def make_wb_sheet (title : String) : Sheet := ⟨title, wbHeader, []⟩

/-- `main` (main.py lines 288-359) as a function of the pagination outcome and
the completion-ordered settled detail futures, returning the two artifacts
written by the `finally` block (lines 357-359).  The `finally` guarantees both
sheets are saved whether the harvest body returns, returns early on an empty
identifier list, or aborts with an exception. -/
def mainRun (pag : Except String (List ℤ)) (dets : List (Except String (Option JVal))) :
    Sheet × Sheet :=
  let st :=
    match pag with
    | .error _ => initState
    | .ok ids => if ids.isEmpty then initState else (foldSteps initState dets).1
  ({ make_wb_sheet "catalog_full" with rows := st.full_rows },
   { make_wb_sheet "catalog_filtered" with rows := st.filt_rows })

/-! ## Helper lemmas -/

theorem exists_ok_of_isOkE {α : Type} {r : Except String α} (h : isOkE r = true) :
    ∃ v, r = .ok v := by
  cases r with
  | ok v => exact ⟨v, rfl⟩
  | error e => simp [isOkE, isErr] at h

theorem mem_firstSeenAux (x : ℤ) :
    ∀ (l seen : List ℤ), x ∈ firstSeenAux seen l ↔ (x ∈ l ∧ x ∉ seen) := by
  intro l
  induction l with
  | nil => intro seen; simp [firstSeenAux]
  | cons y ys ih =>
    intro seen
    by_cases hy : y ∈ seen
    · rw [firstSeenAux, if_pos hy, ih]
      constructor
      · rintro ⟨h1, h2⟩; exact ⟨List.mem_cons_of_mem _ h1, h2⟩
      · rintro ⟨h1, h2⟩
        rcases List.mem_cons.mp h1 with h | h
        · exact absurd (h ▸ hy) h2
        · exact ⟨h, h2⟩
    · rw [firstSeenAux, if_neg hy]
      rw [List.mem_cons, ih]
      constructor
      · rintro (h | ⟨h1, h2⟩)
        · exact ⟨h ▸ List.mem_cons_self y ys, h ▸ hy⟩
        · refine ⟨List.mem_cons_of_mem _ h1, fun hx => h2 ?_⟩
          exact List.mem_cons_of_mem _ hx
      · rintro ⟨h1, h2⟩
        by_cases hxy : x = y
        · exact Or.inl hxy
        · rcases List.mem_cons.mp h1 with h | h
          · exact absurd h hxy
          · refine Or.inr ⟨h, fun hx => ?_⟩
            rcases List.mem_cons.mp hx with h3 | h3
            · exact hxy h3
            · exact h2 h3

theorem nodup_firstSeenAux : ∀ (l seen : List ℤ), (firstSeenAux seen l).Nodup := by
  intro l
  induction l with
  | nil => intro seen; simp [firstSeenAux]
  | cons y ys ih =>
    intro seen
    by_cases hy : y ∈ seen
    · rw [firstSeenAux, if_pos hy]; exact ih seen
    · rw [firstSeenAux, if_neg hy]
      refine List.nodup_cons.mpr ⟨fun hmem => ?_, ih (y :: seen)⟩
      exact ((mem_firstSeenAux y ys (y :: seen)).mp hmem).2 (List.mem_cons_self y seen)

theorem nodup_firstSeen (l : List ℤ) : (firstSeen l).Nodup := nodup_firstSeenAux l []

theorem mem_firstSeen (x : ℤ) (l : List ℤ) : x ∈ firstSeen l ↔ x ∈ l := by
  rw [firstSeen, mem_firstSeenAux]; simp

theorem toFinset_firstSeen (l : List ℤ) : (firstSeen l).toFinset = l.toFinset :=
  List.toFinset.ext fun x => mem_firstSeen x l

/-! ## C1 — partial-failure bookkeeping -/

/-- A detail response whose product list is empty (a fetch that "returns no
payload"). -/
def emptyDetailPayload : JVal := .obj [("data", .obj [("products", .arr [])])]

/-- A detail response carrying one product. -/
def goodDetailPayload (n : ℤ) : JVal :=
  .obj [("data", .obj [("products", .arr [.obj [("id", .int n)]])])]

/-- Ten detail fetches in completion order: five succeed, three return empty
payloads, two exhaust their retries (their `get_json` raises). -/
def scenario10 : List (Except String JVal) :=
  [.ok (goodDetailPayload 1), .ok (goodDetailPayload 2), .error "request failed: 503",
   .ok emptyDetailPayload, .ok (goodDetailPayload 3), .ok emptyDetailPayload,
   .error "request failed: 502", .ok (goodDetailPayload 4), .ok emptyDetailPayload,
   .ok (goodDetailPayload 5)]

/-- C1: the claim's classification does NOT hold of the code.  `fetch_detail`
catches every exception from `get_json` (main.py lines 209-212) and returns
`None`, so a detail fetch that exhausts its retries is counted as "empty" by
`main`, not as "failed" — the `failed` counter branch (main.py lines 322-324)
is unreachable for retry exhaustion.  On the claim's own 10-fetch scenario
(5 good, 3 empty, 2 retry-exhausted) the code yields full = 5, empty = 5,
failed = 0 (the claim demands empty = 3, failed = 2). -/
theorem claim_C1_partial_failure_counts :
    (∀ e, fetch_detail (.error e) = .ok none) ∧
    (foldSteps initState (scenario10.map fetch_detail)).1.ok_full = 5 ∧
    (foldSteps initState (scenario10.map fetch_detail)).1.empty = 5 ∧
    (foldSteps initState (scenario10.map fetch_detail)).1.failed = 0 ∧
    (foldSteps initState (scenario10.map fetch_detail)).1.ok_full +
      (foldSteps initState (scenario10.map fetch_detail)).1.empty +
      (foldSteps initState (scenario10.map fetch_detail)).1.failed = 10 := by
  refine ⟨fun e => rfl, ?_, ?_, ?_, ?_⟩ <;> decide

/-! ## C4 — retry budget -/

/-- A network outcome with a status in the transient set. -/
def TransientResp (r : Resp) : Prop :=
  ∃ code raH body text, r = .http code raH body text ∧ code ∈ TRANSIENT

theorem getJsonGo_all_transient (cfg : ClientCfg) (resp : ℕ → Resp) (jitter : ℕ → ℚ)
    (htr : ∀ i, TransientResp (resp i)) :
    ∀ (fuel attempt : ℕ) (lastErr : Option String), 1 ≤ fuel →
      (getJsonGo cfg resp jitter attempt fuel lastErr).attempts = fuel ∧
      isErr (getJsonGo cfg resp jitter attempt fuel lastErr).result = true ∧
      (getJsonGo cfg resp jitter attempt fuel lastErr).delays.length = fuel - 1 := by
  intro fuel
  induction fuel with
  | zero => intro attempt lastErr h; omega
  | succ k ih =>
    intro attempt lastErr _
    obtain ⟨code, raH, body, text, hr, hmem⟩ := htr attempt
    have hne : (code == 200) = false := by
      simp [TRANSIENT] at hmem
      rcases hmem with h | h | h | h | h <;> simp [h]
    have hcont : TRANSIENT.contains code = true := by
      simp [TRANSIENT] at hmem ⊢
      tauto
    rw [getJsonGo, hr]
    simp only [hne, hcont, Bool.false_eq_true, if_false, Bool.true_and]
    cases k with
    | zero => simp [isErr]
    | succ j =>
      have hk : (j + 1 == 0) = false := by simp
      simp only [hk, Bool.not_false, if_true]
      have := ih (attempt + 1) (some (toString code ++ " " ++ text)) (by omega)
      simp only [this.1, this.2.1, List.length_cons, this.2.2]
      exact ⟨trivial, trivial, by omega⟩

/-- C4: a client configured with `max_attempts = N ≥ 1` receiving a transient
status on every attempt performs exactly N attempts (with N - 1 backoff
sleeps in between) and then surfaces a fetch error; with N = 1 it performs
exactly one attempt and sleeps (retries) never. -/
theorem claim_C4_retry_budget (cfg : ClientCfg) (resp : ℕ → Resp) (jitter : ℕ → ℚ)
    (hN : 1 ≤ cfg.max_attempts) (htr : ∀ i, TransientResp (resp i)) :
    (get_json cfg resp jitter).attempts = cfg.max_attempts ∧
    isErr (get_json cfg resp jitter).result = true ∧
    (get_json cfg resp jitter).delays.length = cfg.max_attempts - 1 ∧
    (cfg.max_attempts = 1 → (get_json cfg resp jitter).delays = []) := by
  obtain ⟨h1, h2, h3⟩ :=
    getJsonGo_all_transient cfg resp jitter htr cfg.max_attempts 1 none hN
  refine ⟨h1, h2, h3, fun hone => ?_⟩
  have : (get_json cfg resp jitter).delays.length = 0 := by
    rw [get_json] at *; omega
  exact List.length_eq_zero.mp this

/-- Witness for C4: with `max_attempts = 1` and an always-503 endpoint the
client performs one attempt, fails, and never sleeps. -/
theorem claim_C4_retry_budget_witness :
    (get_json ⟨1, 3/2, 60⟩ (fun _ => .http 503 none .null "") (fun _ => 0)).attempts = 1 ∧
    isErr (get_json ⟨1, 3/2, 60⟩ (fun _ => .http 503 none .null "") (fun _ => 0)).result = true ∧
    (get_json ⟨1, 3/2, 60⟩ (fun _ => .http 503 none .null "") (fun _ => 0)).delays = [] := by
  have h := claim_C4_retry_budget ⟨1, 3/2, 60⟩ (fun _ => .http 503 none .null "") (fun _ => 0)
    (by decide) (fun i => ⟨503, none, .null, "", rfl, by decide⟩)
  exact ⟨h.1, h.2.1, h.2.2.2 rfl⟩

/-! ## C8 — backoff formula, monotonicity, clamping -/

/-- C8: when no Retry-After hint applies, the delay is
`min(max_delay, base_delay * 2^(attempt-1))` plus the jitter draw; with the
jitter removed it is non-decreasing in the (1-indexed) attempt number and
clamped at `max_delay`, for every positive `base_delay`/`max_delay`. -/
theorem claim_C8_backoff_formula (cfg : ClientCfg) (a b : ℕ) (j : ℚ)
    (hbase : 0 < cfg.base_delay) (hmax : 0 < cfg.max_delay)
    (ha : 1 ≤ a) (hab : a ≤ b) :
    sleepDelay cfg a none j = min cfg.max_delay (cfg.base_delay * 2 ^ (a - 1)) + j ∧
    backoffDelay cfg a 0 ≤ backoffDelay cfg b 0 ∧
    backoffDelay cfg a 0 ≤ cfg.max_delay := by
  refine ⟨rfl, ?_, ?_⟩
  · unfold backoffDelay
    have hpow : (2 : ℚ) ^ (a - 1) ≤ 2 ^ (b - 1) :=
      pow_le_pow_right₀ (by norm_num) (Nat.sub_le_sub_right hab 1)
    have := mul_le_mul_of_nonneg_left hpow hbase.le
    exact add_le_add_right (min_le_min le_rfl this) 0
  · unfold backoffDelay
    simp only [add_zero]
    exact min_le_left cfg.max_delay (cfg.base_delay * 2 ^ (a - 1))

/-- Witness for C8 at `base_delay = 1`, `max_delay = 60`, attempts 1 and 5. -/
theorem claim_C8_backoff_formula_witness :
    sleepDelay ⟨10, 1, 60⟩ 1 none 0 = min (60 : ℚ) (1 * 2 ^ (1 - 1)) + 0 ∧
    backoffDelay ⟨10, 1, 60⟩ 1 0 ≤ backoffDelay ⟨10, 1, 60⟩ 5 0 ∧
    backoffDelay ⟨10, 1, 60⟩ 1 0 ≤ (60 : ℚ) :=
  claim_C8_backoff_formula ⟨10, 1, 60⟩ 1 5 0 (by norm_num) (by norm_num)
    (by norm_num) (by norm_num)

/-! ## C10 — Retry-After taken verbatim -/

/-- C10: a parseable `Retry-After` value is slept verbatim — no jitter is
added and no clamping to `max_delay` occurs (the sleep equals `r` for every
`r`, and the first sleep of `get_json` after a 429 carrying the header is
exactly the parsed value); an absent or unparseable header falls back to the
computed backoff formula. -/
theorem claim_C10_retry_after_verbatim :
    (∀ (cfg : ClientCfg) (attempt : ℕ) (r j : ℚ), sleepDelay cfg attempt (some r) j = r) ∧
    (∀ (cfg : ClientCfg) (attempt : ℕ) (j : ℚ),
        sleepDelay cfg attempt none j = backoffDelay cfg attempt j) ∧
    retry_after none = none ∧ retry_after (some "") = none ∧
    retry_after (some "soon") = none ∧
    (∀ (cfg : ClientCfg) (resp : ℕ → Resp) (jitter : ℕ → ℚ)
        (raH : String) (body : JVal) (text : String) (r : ℚ),
        2 ≤ cfg.max_attempts →
        resp 1 = .http 429 (some raH) body text →
        retry_after (some raH) = some r →
        (get_json cfg resp jitter).delays.head? = some r) := by
  refine ⟨fun _ _ _ _ => rfl, fun _ _ _ => rfl, rfl, rfl, rfl, ?_⟩
  intro cfg resp jitter raH body text r hN hresp hra
  obtain ⟨m, hm⟩ : ∃ m, cfg.max_attempts = m + 2 :=
    ⟨cfg.max_attempts - 2, by omega⟩
  rw [get_json, hm, getJsonGo, hresp]
  simp only [show ((429 : ℕ) == 200) = false from rfl,
    show TRANSIENT.contains 429 = true from rfl,
    show ((429 : ℕ) == 429) = true from rfl,
    show (m + 1 == 0) = false from by simp,
    Bool.false_eq_true, if_false, Bool.not_false, Bool.and_true, if_true, hra]
  rfl

/-- The rational that `retry_after` parses out of the header string `"61"`
(definitionally; `norm_num` shows it equals 61, which exceeds the witness
configuration's `max_delay` of 60). -/
def raProbe : ℚ := (((61 : ℕ) : ℚ) + ((0 : ℕ) : ℚ) / (10 : ℚ) ^ (0 : ℕ)) * (10 : ℚ) ^ (0 : ℤ)

/-- Witness for C10: a 429 with `Retry-After: 61` against `max_delay = 60`
sleeps the parsed 61 — above the clamp. -/
theorem claim_C10_retry_after_verbatim_witness :
    (get_json ⟨3, 1, 60⟩ (fun _ => .http 429 (some "61") .null "") (fun _ => 0)).delays.head?
      = some raProbe ∧ (60 : ℚ) < raProbe := by
  refine ⟨?_, by norm_num [raProbe]⟩
  exact claim_C10_retry_after_verbatim.2.2.2.2.2 ⟨3, 1, 60⟩
    (fun _ => .http 429 (some "61") .null "") (fun _ => 0) "61" .null "" raProbe
    (by norm_num) rfl rfl

/-! ## C6 and C7 — paginator deduplication, ordering and termination -/

/-- The `seen` accumulator of `firstSeenAux` after consuming a list. -/
def seenAfter (seen : List ℤ) : List ℤ → List ℤ
  | [] => seen
  | x :: xs => if x ∈ seen then seenAfter seen xs else seenAfter (x :: seen) xs

theorem firstSeenAux_append (l1 l2 : List ℤ) :
    ∀ seen, firstSeenAux seen (l1 ++ l2) =
      firstSeenAux seen l1 ++ firstSeenAux (seenAfter seen l1) l2 := by
  induction l1 with
  | nil => intro seen; simp [firstSeenAux, seenAfter]
  | cons x xs ih =>
    intro seen
    by_cases hx : x ∈ seen
    · rw [List.cons_append, firstSeenAux, if_pos hx, firstSeenAux, if_pos hx,
        seenAfter, if_pos hx, ih]
    · rw [List.cons_append, firstSeenAux, if_neg hx, firstSeenAux, if_neg hx,
        seenAfter, if_neg hx, ih, List.cons_append]

/-- Page-segment form of the deduplicated output: each page's iteration list
contributes a contiguous segment holding exactly its not-yet-seen
identifiers, in iteration order, in page order. -/
def groupedDedupAux (setIter : List ℤ → List ℤ) (seen : List ℤ) : List (List ℤ) → List ℤ
  | [] => []
  | b :: bs => firstSeenAux seen (setIter b) ++
      groupedDedupAux setIter (seenAfter seen (setIter b)) bs

def groupedDedup (setIter : List ℤ → List ℤ) (blocks : List (List ℤ)) : List ℤ :=
  groupedDedupAux setIter [] blocks

theorem firstSeenAux_flatten_grouped (setIter : List ℤ → List ℤ) :
    ∀ (blocks : List (List ℤ)) (seen : List ℤ),
      firstSeenAux seen ((blocks.map setIter).flatten) = groupedDedupAux setIter seen blocks := by
  intro blocks
  induction blocks with
  | nil => intro seen; simp [firstSeenAux, groupedDedupAux]
  | cons b bs ih =>
    intro seen
    rw [List.map_cons, List.flatten_cons, firstSeenAux_append, groupedDedupAux, ih]

/-- `b` is the (insertion-ordered, deduplicated) identifier list that the
paginator collects from page `p` (main.py lines 172-183). -/
def pageBlock (pages : ℕ → Except String JVal) (p : ℕ) (b : List ℤ) : Prop :=
  ∃ data prodsField products,
    pages p = .ok data ∧
    pyGetE data "products" = .ok prodsField ∧
    pyIterE (pyOr prodsField (.arr [])) = .ok products ∧
    pageIdsOf products = .ok b

/-- Every successful run of the page loop decomposes: some consecutive run of
pages starting at `page` contributes its identifier list as a block, and the
result is the first-seen dedup of the accumulator followed by the per-page
iteration lists, concatenated in page order. -/
theorem fetchAllGo_ok_decomp (pages : ℕ → Except String JVal)
    (setIter : List ℤ → List ℤ) (limit : ℕ) :
    ∀ (fuel page : ℕ) (prev acc ids : List ℤ) (n : ℕ),
      fetchAllGo pages setIter limit page fuel prev acc = .ok (ids, n) →
      ∃ blocks : List (List ℤ),
        (∀ i (hi : i < blocks.length), pageBlock pages (page + i) (blocks.get ⟨i, hi⟩)) ∧
        ids = firstSeen (acc ++ (blocks.map setIter).flatten) := by
  intro fuel
  induction fuel with
  | zero =>
    intro page prev acc ids n h
    rw [fetchAllGo] at h
    refine ⟨[], fun i hi => absurd hi (by simp), ?_⟩
    injection h with h1
    simp only [List.map_nil, List.flatten_nil, List.append_nil]
    exact (congrArg Prod.fst h1).symm
  | succ k ih =>
    intro page prev acc ids n h
    rw [fetchAllGo] at h
    split at h
    · exact absurd h (by simp)
    · split at h
      · exact absurd h (by simp)
      · dsimp only at h
        rename_i a1 data hdata a2 prodsField hget
        split at h
        · refine ⟨[], fun i hi => absurd hi (by simp), ?_⟩
          injection h with h1
          simp only [List.map_nil, List.flatten_nil, List.append_nil]
          exact (congrArg Prod.fst h1).symm
        · split at h
          · exact absurd h (by simp)
          · rename_i a3 products hiter
            split at h
            · exact absurd h (by simp)
            · rename_i a4 pageIds hpids
              split at h
              · refine ⟨[], fun i hi => absurd hi (by simp), ?_⟩
                injection h with h1
                simp only [List.map_nil, List.flatten_nil, List.append_nil]
                exact (congrArg Prod.fst h1).symm
              · split at h
                · refine ⟨[pageIds], ?_, ?_⟩
                  · intro i hi
                    cases i with
                    | zero => exact ⟨data, prodsField, products, hdata, hget, hiter, hpids⟩
                    | succ j => exact absurd hi (by simp)
                  · injection h with h1
                    simp only [List.map_cons, List.map_nil, List.flatten_cons,
                      List.flatten_nil, List.append_nil]
                    exact (congrArg Prod.fst h1).symm
                · obtain ⟨blocks, hcond, hids⟩ :=
                    ih (page + 1) pageIds (acc ++ setIter pageIds) ids n h
                  refine ⟨pageIds :: blocks, ?_, ?_⟩
                  · intro i hi
                    cases i with
                    | zero => exact ⟨data, prodsField, products, hdata, hget, hiter, hpids⟩
                    | succ j =>
                      have hj : j < blocks.length := by simpa using hi
                      have harith : page + (j + 1) = (page + 1) + j := by omega
                      rw [harith]
                      exact hcond j hj
                  · rw [hids, List.map_cons, List.flatten_cons, ← List.append_assoc]

/-- A search page whose product list carries the given identifiers. -/
def mkSearchPage (ids : List ℤ) : JVal :=
  .obj [("products", .arr (ids.map (fun i => .obj [("id", .int i)])))]

/-- The spec's dedup example realized across two pages: `[5, 3]` then
`[5, 7, 3]` (first-seen order `[5, 3, 5, 7, 3]`), then an empty page. -/
def c6pages : ℕ → Except String JVal := fun n =>
  if n = 1 then .ok (mkSearchPage [5, 3])
  else if n = 2 then .ok (mkSearchPage [5, 7, 3])
  else .ok (mkSearchPage [])

/-- C6 (amended): for EVERY run, the returned identifier list is
duplicate-free and equals the first-seen dedup of the page-ordered
concatenation of the per-page set-iteration lists — equivalently its
page-segment form `groupedDedup`: identifiers grouped by the page of first
appearance, in page order, each page's segment in set-iteration order (each
block being exactly the identifier list the paginator collected from the
corresponding fetched page, consecutively from page 1).  When set iteration
happens to emit insertion order, the example first-seen sequence
`[5, 3, 5, 7, 3]` collapses to `[5, 3, 7]`.  (Within a page the set-iteration
order need not be first-seen order — see the counterexample.) -/
theorem claim_C6_dedup_order_amended :
    (∀ pages setIter limit maxPages ids n,
        fetch_all_nm_ids pages setIter limit maxPages = .ok (ids, n) →
        ids.Nodup ∧
        ∃ blocks : List (List ℤ),
          (∀ i (hi : i < blocks.length), pageBlock pages (1 + i) (blocks.get ⟨i, hi⟩)) ∧
          ids = firstSeen ((blocks.map setIter).flatten) ∧
          ids = groupedDedup setIter blocks) ∧
    fetch_all_nm_ids c6pages id 2 20 = .ok ([5, 3, 7], 3) := by
  constructor
  · intro pages setIter limit maxPages ids n h
    obtain ⟨blocks, hcond, hids⟩ :=
      fetchAllGo_ok_decomp pages setIter limit maxPages 1 [] [] ids n h
    rw [List.nil_append] at hids
    refine ⟨hids ▸ nodup_firstSeen _, blocks, hcond, hids, ?_⟩
    rw [hids]
    exact firstSeenAux_flatten_grouped setIter blocks []
  · rfl

/-- Witness for C6 (amended), instantiating the universal conjunct at the
example run. -/
theorem claim_C6_dedup_order_amended_witness :
    ([5, 3, 7] : List ℤ).Nodup ∧
    ∃ blocks : List (List ℤ),
      (∀ i (hi : i < blocks.length), pageBlock c6pages (1 + i) (blocks.get ⟨i, hi⟩)) ∧
      ([5, 3, 7] : List ℤ) = firstSeen ((blocks.map id).flatten) ∧
      ([5, 3, 7] : List ℤ) = groupedDedup id blocks :=
  claim_C6_dedup_order_amended.1 c6pages id 2 20 [5, 3, 7] 3
    claim_C6_dedup_order_amended.2

/-- Insertion into an ascending list. -/
def insSorted (x : ℤ) : List ℤ → List ℤ
  | [] => [x]
  | y :: ys => if x ≤ y then x :: y :: ys else y :: insSorted x ys

/-- Ascending set-iteration order.  This models what CPython actually does on
the example: a fresh `set` built from small non-negative ints occupying
distinct hash slots (`hash(n) = n`) iterates in slot order, so
`list({5, 3})` is `[3, 5]`, not insertion order `[5, 3]`. -/
def sortIter (l : List ℤ) : List ℤ := l.foldr insSorted []

/-- One page with products `[5, 3]`, then an empty page. -/
def c6cexPages : ℕ → Except String JVal := fun n =>
  if n = 1 then .ok (mkSearchPage [5, 3]) else .ok (mkSearchPage [])

/-- Counterexample to C6 as stated: `nm_ids.extend(page_ids)` (main.py line
189) iterates a `set`, so within a page the first-seen order `[5, 3]` is not
preserved — under CPython's integer hash iteration the run yields `[3, 5]`. -/
theorem claim_C6_dedup_order_cex :
    fetch_all_nm_ids c6cexPages sortIter 2 20 = .ok ([3, 5], 2) ∧
    ([3, 5] : List ℤ) ≠ [5, 3] := by
  exact ⟨rfl, by decide⟩

/-- Pages 1-4: `[1, 2]`, `[3, 4]`, `[8, 9]`, then `[9, 8]` (same identifier
set as page 3); pages past 4 are an arbitrary `tail`, never consulted. -/
def c7pages (tail : ℕ → Except String JVal) : ℕ → Except String JVal := fun n =>
  if n = 1 then .ok (mkSearchPage [1, 2])
  else if n = 2 then .ok (mkSearchPage [3, 4])
  else if n = 3 then .ok (mkSearchPage [8, 9])
  else if n = 4 then .ok (mkSearchPage [9, 8])
  else tail n

/-- C7: when page 4 repeats page 3's non-empty identifier set, collection
stops at page 4 (no page 5 is fetched: the result does not depend on `tail`),
the repeated page's identifiers are not added twice (the output is
duplicate-free), and the identifiers are exactly those of pages 1-3. -/
theorem claim_C7_repeat_page_stop (tail : ℕ → Except String JVal)
    (setIter : List ℤ → List ℤ) (hs : SetIterOK setIter) :
    ∃ ids, fetch_all_nm_ids (c7pages tail) setIter 2 20 = .ok (ids, 4) ∧
      ids.toFinset = ({1, 2, 3, 4, 8, 9} : Finset ℤ) ∧ ids.Nodup := by
  refine ⟨firstSeen ((([] ++ setIter [1, 2]) ++ setIter [3, 4]) ++ setIter [8, 9]),
    rfl, ?_, nodup_firstSeen _⟩
  have e12 : (setIter [1, 2]).toFinset = ([1, 2] : List ℤ).toFinset :=
    List.toFinset.ext fun x => (hs [1, 2] (by decide)).mem_iff
  have e34 : (setIter [3, 4]).toFinset = ([3, 4] : List ℤ).toFinset :=
    List.toFinset.ext fun x => (hs [3, 4] (by decide)).mem_iff
  have e89 : (setIter [8, 9]).toFinset = ([8, 9] : List ℤ).toFinset :=
    List.toFinset.ext fun x => (hs [8, 9] (by decide)).mem_iff
  rw [toFinset_firstSeen, List.toFinset_append, List.toFinset_append, List.toFinset_append,
    e12, e34, e89]
  decide

/-- Witness for C7 with insertion-order set iteration and a null tail. -/
theorem claim_C7_repeat_page_stop_witness :
    ∃ ids, fetch_all_nm_ids (c7pages (fun _ => .ok .null)) id 2 20 = .ok (ids, 4) ∧
      ids.toFinset = ({1, 2, 3, 4, 8, 9} : Finset ℤ) ∧ ids.Nodup :=
  claim_C7_repeat_page_stop (fun _ => .ok .null) id (fun xs _ => List.Perm.refl xs)

/-! ## C3 — the filter predicate -/

/-- The spec's example characteristics tree. -/
def ruTree : JVal := .obj [("Состав", .arr [.obj [("Страна производства", .str "Россия")]])]

/-- Wrap a tree in `n` layers of single-element lists. -/
def wrapArr : ℕ → JVal → JVal
  | 0, t => t
  | n + 1, t => .arr [wrapArr n t]

/-- C3: a record reaches the filtered output iff its rating is present and
at least 4.5, its price is present and at most 10000, and `has_russia` accepts
the characteristics tree (the depth-first key/value search); and the example
tree is accepted under any depth of list wrapping. -/
theorem claim_C3_filter_iff :
    (∀ (st : RunState) (row : Row) (ch : JVal),
        ((filterStep st row ch).filt_rows = st.filt_rows ++ [row] ↔
          (∃ ra, row.rating = some ra ∧ 4.5 ≤ ra) ∧
          (∃ pr, row.price = some pr ∧ pr ≤ 10000) ∧ has_russia ch = true) ∧
        ((filterStep st row ch).filt_rows = st.filt_rows ∨
          (filterStep st row ch).filt_rows = st.filt_rows ++ [row])) ∧
    (∀ n, has_russia (wrapArr n ruTree) = true) := by
  constructor
  · intro st row ch
    rcases hp : row.price with _ | pr <;> rcases hr : row.rating with _ | ra <;>
      simp only [filterStep, hp, hr]
    · simp
    · simp
    · simp
    · by_cases h1 : ra < 4.5
      · rw [if_pos h1]
        refine ⟨⟨fun hco => absurd hco (by simp), ?_⟩, Or.inl rfl⟩
        rintro ⟨⟨ra2, hra2, hge⟩, _⟩
        rw [Option.some.injEq] at hra2
        exact absurd h1 (not_lt.mpr (hra2 ▸ hge))
      · rw [if_neg h1]
        by_cases h2 : pr > 10000
        · rw [if_pos h2]
          refine ⟨⟨fun hco => absurd hco (by simp), ?_⟩, Or.inl rfl⟩
          rintro ⟨_, ⟨pr2, hpr2, hle⟩, _⟩
          rw [Option.some.injEq] at hpr2
          exact absurd h2 (not_lt.mpr (hpr2 ▸ hle))
        · rw [if_neg h2]
          cases hru : has_russia ch
          · rw [if_pos (by simp [hru])]
            refine ⟨⟨fun hco => absurd hco (by simp), ?_⟩, Or.inl rfl⟩
            rintro ⟨_, _, hr3⟩
            exact absurd hr3 (by simp [hru])
          · rw [if_neg (by simp [hru])]
            refine ⟨⟨fun _ => ?_, fun _ => rfl⟩, Or.inr rfl⟩
            exact ⟨⟨ra, rfl, not_lt.mp h1⟩, ⟨pr, rfl, not_lt.mp h2⟩, rfl⟩
  · intro n
    induction n with
    | zero => decide
    | succ k ih => simp [wrapArr, has_russia, hrArr, ih]

/-- A record with rating 5 and price 1. -/
def row0 : Row := ⟨none, none, .null, some 1, .null, "", "", .null, none, "", 0, some 5, none⟩

/-- Witness for C3: a rating-5, price-1 record with the example tree is
appended to the filtered rows. -/
theorem claim_C3_filter_iff_witness :
    (filterStep initState row0 ruTree).filt_rows = [row0] :=
  (claim_C3_filter_iff.1 initState row0 ruTree).1.mpr
    ⟨⟨5, rfl, by norm_num⟩, ⟨1, rfl, by norm_num⟩, by decide⟩

/-! ## C2 — totality of record extraction -/

theorem guardIntOk (v : JVal) (h : pyTruthy v = true → (pyIntCoe v).isSome) :
    ∃ n, (if pyTruthy v then (pyIntE v).map some else .ok none : Except String (Option ℤ)) = .ok n := by
  cases ht : pyTruthy v
  · exact ⟨none, by simp [ht]⟩
  · obtain ⟨n, hn⟩ := Option.isSome_iff_exists.mp (h ht)
    exact ⟨some n, by simp [ht, pyIntE, hn, Except.map]⟩

/-- C2 (amended): extraction never raises PROVIDED the payload is a dict, the
resolved identifier (`id`/`nmId`) and the supplier id are `int`-coercible
whenever truthy, and the size/stock traversals do not raise (the size
collection, when truthy, is a list of dicts whose stock collections, when
truthy, are lists of dicts).  These four operations are extraction's only
failure modes: every other field degrades to absent/default. -/
theorem claim_C2_amended_total (p : JVal) (fs : List (String × JVal))
    (hobj : p = .obj fs)
    (hnm : pyTruthy (nmIdOf p) = true → (pyIntCoe (nmIdOf p)).isSome)
    (hsup : pyTruthy (getD p "supplierId") = true → (pyIntCoe (getD p "supplierId")).isSome)
    (hsz : isOkE (sizes p) = true)
    (hstk : isOkE (stocks p) = true) :
    isOkE (parse_row_and_chars p) = true := by
  subst hobj
  obtain ⟨nmv, hnm2⟩ := guardIntOk _ hnm
  obtain ⟨supv, hsup2⟩ := guardIntOk _ hsup
  obtain ⟨sz, hsz2⟩ := exists_ok_of_isOkE hsz
  obtain ⟨stk, hstk2⟩ := exists_ok_of_isOkE hstk
  simp only [parse_row_and_chars]
  rw [hnm2, hsup2, hsz2, hstk2]
  rfl

/-- Counterexample to C2 as stated: extraction is NOT total over arbitrary
JSON payloads — on `{"id": "abc"}` the truthy, non-coercible identifier makes
`int(nm_id)` (main.py line 247) raise `ValueError`, aborting the whole
extraction rather than degrading the field. -/
theorem claim_C2_total_cex :
    isErr (parse_row_and_chars (.obj [("id", .str "abc")])) = true := rfl

/-- A payload satisfying the amended preconditions. -/
def c2WitnessPayload : JVal :=
  .obj [("id", .int 7), ("supplierId", .int 9),
        ("sizes", .arr [.obj [("name", .str "M"),
                              ("stocks", .arr [.obj [("qty", .int 3)]])]])]

/-- Witness for C2 (amended). -/
theorem claim_C2_amended_total_witness :
    isOkE (parse_row_and_chars c2WitnessPayload) = true :=
  claim_C2_amended_total c2WitnessPayload
    [("id", .int 7), ("supplierId", .int 9),
     ("sizes", .arr [.obj [("name", .str "M"),
                           ("stocks", .arr [.obj [("qty", .int 3)]])]])]
    rfl (by decide) (by decide) (by decide) (by decide)

/-! ## C5 — price selection and money normalization -/

theorem parse_price_eq (p : JVal) (row : Row) (ch : JVal)
    (h : parse_row_and_chars p = .ok (row, ch)) : row.price = priceOf p := by
  cases p with
  | null => simp [parse_row_and_chars] at h
  | bool b => simp [parse_row_and_chars] at h
  | int n => simp [parse_row_and_chars] at h
  | float q => simp [parse_row_and_chars] at h
  | str s => simp [parse_row_and_chars] at h
  | arr xs => simp [parse_row_and_chars] at h
  | obj fs =>
    simp only [parse_row_and_chars] at h
    split at h
    · exact absurd h (by simp)
    · split at h
      · exact absurd h (by simp)
      · split at h
        · exact absurd h (by simp)
        · split at h
          · exact absurd h (by simp)
          · injection h with h1
            simp only [Prod.mk.injEq] at h1
            rw [← h1.1]

/-- The claim's reading of line 223: the first of the three monetary fields
that successfully coerces wins. -/
def specPriceClaim (m1 m2 m3 : Option ℚ) : Option ℚ := m1 <|> (m2 <|> m3)

/-- First value that is present AND nonzero. -/
def nzFirst : List (Option ℚ) → Option ℚ
  | [] => none
  | some x :: rest => if x ≠ 0 then some x else nzFirst rest
  | none :: rest => nzFirst rest

/-- The amended reading: the first of the three that coerces to a NONZERO
number wins; when none does, the result is the third field's money value
(which is then `none` or `some 0`). -/
def specPriceAmended (m1 m2 m3 : Option ℚ) : Option ℚ :=
  match nzFirst [m1, m2, m3] with
  | some x => some x
  | none => m3

theorem pyOrOpt_spec (a b c : Option ℚ) : pyOrOpt a (pyOrOpt b c) = specPriceAmended a b c := by
  rcases a with _ | x <;> rcases b with _ | y <;> rcases c with _ | z <;>
    simp only [pyOrOpt, specPriceAmended, nzFirst] <;>
    (repeat' split) <;> simp_all

/-- C5 (amended): the extracted price is the FIRST OF THE THREE FIELDS THAT
COERCES TO A NONZERO NUMBER, divided by 100 (`money`); when every field is
absent, invalid or zero, the price is `money` of the third field.  (Python's
`or` chain treats a successfully-coerced `0.0` as falsy — see the
counterexample.)  Money normalization: `123456 ↦ 1234.56`, `None`/non-numeric
`↦` absent. -/
theorem claim_C5_price_amended :
    (∀ p row ch, parse_row_and_chars p = .ok (row, ch) → row.price = priceOf p) ∧
    (∀ p, priceOf p = specPriceAmended (money (getD p "salePriceU"))
        (money (getD p "priceU")) (money (getD p "price"))) ∧
    money (.int 123456) = some (1234.56 : ℚ) ∧ money .null = none ∧
    money (.str "abc") = none := by
  refine ⟨fun p row ch h => parse_price_eq p row ch h,
    fun p => pyOrOpt_spec _ _ _, ?_, rfl, rfl⟩
  norm_num [money, pyFloatCoe]

/-- `{"salePriceU": 0, "priceU": 200}`: the first field coerces successfully
(to 0.0), yet the second is consulted. -/
def cexPricePayload : JVal := .obj [("salePriceU", .int 0), ("priceU", .int 200)]

/-- Counterexample to C5 as stated: on `{"salePriceU": 0, "priceU": 200}` the
code's price is `2.0` (the `or` chain skips the falsy `0.0`), not the
first-coerced value `0.0` the claim demands. -/
theorem claim_C5_price_cex :
    priceOf cexPricePayload = some 2 ∧
    specPriceClaim (money (getD cexPricePayload "salePriceU"))
      (money (getD cexPricePayload "priceU")) (money (getD cexPricePayload "price")) = some 0 ∧
    priceOf cexPricePayload ≠
      specPriceClaim (money (getD cexPricePayload "salePriceU"))
        (money (getD cexPricePayload "priceU")) (money (getD cexPricePayload "price")) := by
  have h1 : getD cexPricePayload "salePriceU" = .int 0 := rfl
  have h2 : getD cexPricePayload "priceU" = .int 200 := rfl
  have h3 : getD cexPricePayload "price" = .null := rfl
  have hm1 : money (.int 0) = some 0 := by norm_num [money, pyFloatCoe]
  have hm2 : money (.int 200) = some 2 := by norm_num [money, pyFloatCoe]
  refine ⟨?_, ?_, ?_⟩
  · show pyOrOpt (money (getD cexPricePayload "salePriceU"))
      (pyOrOpt (money (getD cexPricePayload "priceU")) (money (getD cexPricePayload "price"))) = some 2
    rw [h1, h2, h3, hm1, hm2]
    norm_num [pyOrOpt, money]
  · rw [h1, h2, h3, hm1, hm2]
    norm_num [specPriceClaim, money]
  · show pyOrOpt (money (getD cexPricePayload "salePriceU"))
      (pyOrOpt (money (getD cexPricePayload "priceU")) (money (getD cexPricePayload "price"))) ≠ _
    rw [h1, h2, h3, hm1, hm2]
    norm_num [pyOrOpt, specPriceClaim, money]

/-- Witness for C5 (amended) on the zero-salePriceU payload. -/
theorem claim_C5_price_amended_witness :
    ∃ row ch, parse_row_and_chars cexPricePayload = .ok (row, ch) ∧
      row.price = specPriceAmended (money (getD cexPricePayload "salePriceU"))
        (money (getD cexPricePayload "priceU")) (money (getD cexPricePayload "price")) := by
  obtain ⟨⟨row, ch⟩, hv⟩ := exists_ok_of_isOkE
    (show isOkE (parse_row_and_chars cexPricePayload) = true from rfl)
  exact ⟨row, ch, hv, by
    rw [claim_C5_price_amended.1 cexPricePayload row ch hv, claim_C5_price_amended.2.1]⟩

/-! ## C9 — persist-on-exit -/

theorem foldSteps_append_none (l1 l2 : List (Except String (Option JVal))) :
    ∀ (st st1 : RunState), foldSteps st l1 = (st1, none) →
      foldSteps st (l1 ++ l2) = foldSteps st1 l2 := by
  induction l1 with
  | nil =>
    intro st st1 h
    rw [foldSteps] at h
    injection h with h1 _
    rw [List.nil_append, h1]
  | cons r rs ih =>
    intro st st1 h
    rw [foldSteps] at h
    rw [List.cons_append, foldSteps]
    cases hm : mainStep st r with
    | ok st2 =>
      rw [hm] at h
      exact ih st2 st1 h
    | error e =>
      rw [hm] at h
      have h2 : ((st, some e) : RunState × Option String) = (st1, none) := h
      injection h2 with _ h3
      exact absurd h3 (by simp)

/-- C9: the two artifacts are always written by the cleanup path.  A run whose
pagination aborts, or that finds no identifiers, persists two header-only
sheets; every run persists sheets consisting of the header plus exactly the
accumulated rows; and a run whose harvest body aborts mid-stream (an element
whose processing raises) persists precisely the rows accumulated before the
aborting element. -/
theorem claim_C9_persist_on_exit :
    (∀ e dets, mainRun (.error e) dets =
        (make_wb_sheet "catalog_full", make_wb_sheet "catalog_filtered")) ∧
    (∀ dets, mainRun (.ok []) dets =
        (make_wb_sheet "catalog_full", make_wb_sheet "catalog_filtered")) ∧
    (∀ pag dets, ∃ st : RunState,
        mainRun pag dets =
          ({ make_wb_sheet "catalog_full" with rows := st.full_rows },
           { make_wb_sheet "catalog_filtered" with rows := st.filt_rows })) ∧
    (∀ (ids : List ℤ) dets1 bad dets2 (st1 : RunState) e, ids ≠ [] →
        foldSteps initState dets1 = (st1, none) → mainStep st1 bad = .error e →
        mainRun (.ok ids) (dets1 ++ bad :: dets2) =
          ({ make_wb_sheet "catalog_full" with rows := st1.full_rows },
           { make_wb_sheet "catalog_filtered" with rows := st1.filt_rows })) := by
  refine ⟨fun e dets => rfl, fun dets => rfl, ?_, ?_⟩
  · intro pag dets
    rcases pag with e | ids
    · exact ⟨initState, rfl⟩
    · by_cases h : ids.isEmpty
      · exact ⟨initState, by simp [mainRun, h]⟩
      · exact ⟨(foldSteps initState dets).1, by simp [mainRun, h]⟩
  · intro ids dets1 bad dets2 st1 e hne h1 h2
    have hfold : foldSteps initState (dets1 ++ bad :: dets2) = (st1, some e) := by
      rw [foldSteps_append_none dets1 (bad :: dets2) initState st1 h1, foldSteps, h2]
    have hid : ids.isEmpty = false := by
      cases ids with
      | nil => exact absurd rfl hne
      | cons a as => rfl
    simp [mainRun, hid, hfold]

/-- A detail payload that parses. -/
def g9Payload : JVal := .obj [("id", .int 7)]

/-- A detail payload whose parse raises (truthy non-coercible identifier). -/
def b9Payload : JVal := .obj [("id", .str "x")]

/-- The canonical record extracted from `g9Payload`. -/
def row7 : Row :=
  ⟨some "https://www.wildberries.ru/catalog/7/detail.aspx", some 7, .null, none, .null,
   "", "\x7b\x7d", .null, none, "", 0, none, none⟩

/-- Witness for C9: a run that parses one record, then aborts on a malformed
payload, still persists the record accumulated before the abort (and the
header), and drops nothing silently. -/
theorem claim_C9_persist_on_exit_witness :
    mainRun (.ok [1]) ([.ok (some g9Payload)] ++ .ok (some b9Payload) :: [.ok none]) =
      (⟨"catalog_full", wbHeader, [row7]⟩, ⟨"catalog_filtered", wbHeader, []⟩) :=
  claim_C9_persist_on_exit.2.2.2 [1] [.ok (some g9Payload)] (.ok (some b9Payload)) [.ok none]
    ⟨1, 0, 0, 0, [row7], []⟩ "ValueError: invalid int() argument" (by simp) rfl rfl
